import Mathlib

/-!
Verification of the entity-structure extraction and diagram-assembly pipeline
of `src/umlizer/class_graph.py` (the `umlizer` tool).

The Python module is shallowly embedded: each Python function of the core is
translated into an executable Lean definition operating on an explicit model of
the Python runtime values the code inspects (classes, their `__dict__`,
`__annotations__`, `__dataclass_fields__`, `__mro__`, and the values used as
type annotations).  Python `dict`s are modelled as association lists in
insertion order (Python 3.7+ dicts preserve insertion order, and insertion
order is what drives rendering order).  Python string primitives used by the
code (`str.startswith`, `str.rstrip`, `str.split`, `str.join`) are modelled by
structurally recursive Lean functions over the character data, so every
concrete computation reduces by `rfl`/`decide`.
-/

/-- A Python value as observed by the reflection in `class_graph.py` when it is
stringified as a type or entity reference (`_get_fullname`, line 40-59).
The code branches on `hasattr(entity, '__module__')` and
`hasattr(entity, '__name__')`:

* `qualified module name` — the value has both `__module__` and `__name__`
  (every Python class is of this shape);
* `named name` — the value has `__name__` but no `__module__`;
* `other s` — the value has neither; `str(value)` renders as `s`.

A value having `__module__` but no `__name__` would make the f-string on
line 55 raise `AttributeError`; no value of that shape is representable here
(the code never handles one: the exception would simply propagate). -/
inductive PyRef where
  | qualified (module name : String)
  | named (name : String)
  | other (s : String)
deriving DecidableEq, Repr

/-- What kind of object a class `__dict__` entry holds, as far as
`isinstance(v, types.FunctionType)` (line 84) can observe: a plain function,
a `staticmethod` wrapper, a `classmethod` wrapper (neither wrapper is an
instance of `types.FunctionType`), or any other value. -/
inductive PyKind where
  | function
  | staticmethodWrap
  | classmethodWrap
  | plain
deriving DecidableEq, Repr

/-- `isinstance(v, types.FunctionType)`. -/
def PyKind.isFunction : PyKind → Bool
  | .function => true
  | _ => false

/-- One entry of a class `__dict__`: its kind plus, when it is a function, the
function's `__annotations__` (parameter/return name → annotation value). -/
structure PyMember where
  kind : PyKind
  anns : List (String × PyRef)
deriving DecidableEq, Repr

/-- An entry of a class `__mro__`: every Python class has `__module__` and
`__name__`, which is all `_get_base_classes`/`_get_fullname` read from it. -/
structure ClassRef where
  module : String
  name : String
deriving DecidableEq, Repr

/-- The `PyRef` view of an mro entry (classes always have both attributes). -/
def ClassRef.ref (c : ClassRef) : PyRef := .qualified c.module c.name

/-- A Python class as observed by the extractor: `__module__`, `__name__`,
`__dict__` (insertion order), `__annotations__`, `__dataclass_fields__`
(field name → the declared `field.type` value, present when
`dataclasses.is_dataclass` holds), and `__mro__` (starting with the class
itself and ending with `object`). -/
structure PyClass where
  module : String
  name : String
  dict : List (String × PyMember)
  annotations : List (String × PyRef)
  dataclassFields : List (String × PyRef)
  isDataclass : Bool
  mro : List ClassRef
deriving DecidableEq, Repr

/-- The `PyRef` view of a class (classes always have `__module__` and
`__name__`). -/
def PyClass.ref (k : PyClass) : PyRef := .qualified k.module k.name

/-- Python `s.startswith(p)`: `p.data` is a list prefix of `s.data`. -/
def pyStartswith (s p : String) : Bool :=
  p.data.isPrefixOf s.data

/-- Python `sep.join(parts)` (used as `', '.join(...)`, `'\\l'.join(...)`,
`os.sep.join(...)`). -/
def joinSep (sep : String) : List String → String
  | [] => ""
  | [a] => a
  | a :: b :: rest => a ++ sep ++ joinSep sep (b :: rest)

/-- Python `s.rstrip(chars)`: remove every trailing character that is a member
of `chars` (a character set, not a suffix). -/
def pyRstrip (chars : List Char) (s : String) : String :=
  ⟨((s.data.reverse.dropWhile (fun c => chars.contains c))).reverse⟩

/-- Python `s.split(sep)` for a one-character separator (`os.sep`), on the
character data: `''.split` gives `[""]`, separators at the ends give empty
groups, exactly as `str.split` with an explicit separator does. -/
def pySplitChar (sep : Char) : List Char → List (List Char)
  | [] => [[]]
  | c :: rest =>
    match pySplitChar sep rest with
    | [] => [[]]
    | grp :: gs => if c = sep then [] :: grp :: gs else (c :: grp) :: gs

/-- `ClassDef` (line 20-30): the normalized structural record of one entity. -/
structure ClassDef where
  name : String := ""
  module : String := ""
  bases : List String := []
  fields : List (String × String) := []
  methods : List (String × List (String × String)) := []
deriving DecidableEq, Repr

/-- `_get_fullname` (line 40-59): the three-tier stringification rule.
`module.name` when `__module__` is present, else `__name__` when present,
else `str(entity)`. -/
def _get_fullname : PyRef → String
  | .qualified m n => m ++ "." ++ n
  | .named n => n
  | .other s => s

/-- `entity.__name__` read off a reference; `none` models the
`AttributeError` raised when the value has no `__name__`
(used by `_get_dataclass_structure`, line 96). -/
def pyName : PyRef → Option String
  | .qualified _ n => some n
  | .named n => some n
  | .other _ => none

/-- `_get_method_annotation` (line 62-64): stringify each entry of a
function's `__annotations__` with `_get_fullname`. -/
def _get_method_annotation (anns : List (String × PyRef)) :
    List (String × String) :=
  anns.map (fun kv => (kv.1, _get_fullname kv.2))

/-- `_get_methods` (line 67-89): the own-`__dict__` entries whose key does not
start with `'__'` and whose value is a `types.FunctionType`, each mapped to
its stringified annotations. -/
def _get_methods (entity : PyClass) : List (String × List (String × String)) :=
  (entity.dict.filter
      (fun kv => !(pyStartswith kv.1 "__") && kv.2.kind.isFunction)).map
    (fun kv => (kv.1, _get_method_annotation kv.2.anns))

/-- `_get_dataclass_structure` (line 92-102): fields come from
`klass.__dataclass_fields__`, each rendered as `v.type.__name__` (bare name
only); `none` models the `AttributeError` raised when a declared field type
has no `__name__`. -/
def _get_dataclass_structure (klass : PyClass) : Option ClassDef :=
  (klass.dataclassFields.mapM
      (fun kv => (pyName kv.2).map (fun n => (kv.1, n)))).map
    (fun fields =>
      { name := "", fields := fields, methods := _get_methods klass })

/-- `_get_base_classes` (line 105-110): the mro entries whose **bare name** is
neither `'object'` nor the class's own bare name (`c.__name__ not in
('object', klass.__name__)`). -/
def _get_base_classes (klass : PyClass) : List ClassRef :=
  klass.mro.filter
    (fun c => !(c.name == "object") && !(c.name == klass.name))

/-- `_get_annotations` (line 113-115): stringify each entry of
`klass.__annotations__` with `_get_fullname`. -/
def _get_annotations (klass : PyClass) : List (String × String) :=
  klass.annotations.map (fun kv => (kv.1, _get_fullname kv.2))

/-- `_get_classic_class_structure` (line 118-133): walk the own-`__dict__`
keys, skip dunder keys and methods; each remaining key's value is looked up in
the stringified annotations with default `''`.  The looked-up `value` is a
Python `str`, and `str` has no `__value__` attribute, so
`getattr(value, '__value__', str(value))` (line 128) is `value` itself. -/
def _get_classic_class_structure (klass : PyClass) : ClassDef :=
  let _methods := _get_methods klass
  let fields :=
    (klass.dict.filter
        (fun kv => !(pyStartswith kv.1 "__")
          && !(_methods.any (fun m => m.1 == kv.1)))).map
      (fun kv => (kv.1, ((_get_annotations klass).lookup kv.1).getD ""))
  { fields := fields, methods := _methods }

/-- `_get_class_structure` (line 136-153): dispatch on
`dataclasses.is_dataclass`, then set `module`, `name` (via `_get_fullname`)
and `bases` (the `_get_base_classes` entries via `_get_fullname`).  The
`raise Exception` branch for non-classes is unreachable here because the
input type models a genuine class. -/
def _get_class_structure (klass : PyClass) : Option ClassDef :=
  (if klass.isDataclass then _get_dataclass_structure klass
   else some ( _get_classic_class_structure klass)).map
    (fun cs =>
      { cs with
        module := klass.module
        name := _get_fullname klass.ref
        bases := (_get_base_classes klass).map (fun c => _get_fullname c.ref) })

/-- One field line of the UML label (line 182):
`f'{"-" if k.startswith("_") else "+"} {k}: {v}'`. -/
def fieldLine (kv : String × String) : String :=
  (if pyStartswith kv.1 "_" then "-" else "+") ++ " " ++ kv.1 ++ ": " ++ kv.2

/-- One method line of the UML label (line 192):
`f'{"-" if m_name.startswith("_") else "+"} {m_name}()'`. -/
def methodLine (m : String) : String :=
  (if pyStartswith m "_" then "-" else "+") ++ " " ++ m ++ "()"

/-- `_get_entity_class_uml` (line 156-199): the record label
`{name [(bases)] | fields | methods}`.  `if base_classes:` is Python string
truthiness, i.e. the joined base list is nonempty; each of the two blocks is
the `'\\l'`-join of its lines plus a trailing `'\\l'`. -/
def _get_entity_class_uml (klass : ClassDef) : String :=
  let base_classes := joinSep ", " klass.bases
  let class_name :=
    if base_classes = "" then klass.name
    else klass.name ++ " (" ++ base_classes ++ ")"
  let fields := joinSep "\\l" (klass.fields.map fieldLine) ++ "\\l"
  let methods := joinSep "\\l" (klass.methods.map (fun m => methodLine m.1)) ++ "\\l"
  "\x7b" ++ class_name ++ "|" ++ fields ++ "|" ++ methods ++ "\x7d"

/-- The graph object built by `create_diagram`: the node statements in
emission order (one `g.node` call per entity) and the deduplicated edge set
(`g.edges(set(edges))`, line 315; Python `set` iteration order is arbitrary,
so the edge collection is modelled as a finite set). -/
structure GvDigraph where
  nodes : List (String × String)
  edges : Finset (String × String)

/-- `create_diagram` (line 297-316): one node per entity keyed by `name` and
labeled by `_get_entity_class_uml`; one `(base, derived)` pair appended per
entry of each entity's `bases`, deduplicated through `set(edges)`.  The
`verbose` progress printing is a pure log side effect and does not touch the
graph. -/
def create_diagram (classes_list : List ClassDef) : GvDigraph :=
  { nodes := classes_list.map (fun k => (k.name, _get_entity_class_uml k)),
    edges :=
      (classes_list.flatMap
          (fun k => k.bases.map (fun b => (b, k.name)))).toFinset }

/-- `_extract_module_name` (line 237-258): split the path on `os.sep`
(`'/'` on POSIX), rejoin all but the last component, and derive the module
name from the last component by `rstrip('.py')` — which strips **all**
trailing `'.'`, `'p'` and `'y'` characters, not the `.py` suffix.
`str.split` never returns an empty list, so the `[-1]` index is total. -/
def _extract_module_name (module_path : String) : String × String :=
  let module_split :=
    (pySplitChar '/' module_path.data).map (fun l => (⟨l⟩ : String))
  let module_dir := joinSep "/" module_split.dropLast
  let module_filename := module_split.getLastD ""
  let module_name := pyRstrip ['.', 'p', 'y'] module_filename
  (module_dir, module_name)

-- sanity checks on the concrete string primitives

/-- The outcome of `importlib.import_module` for one source file, as far as
`_get_classes_from_module` observes it: a loaded module (its attribute table,
in `dir(module)` order, each attribute either a class or not), an ordinary
exception with its message, or a `KeyboardInterrupt`. -/
inductive ImportOutcome where
  | ok (attrs : List (String × Option PyClass))
  | err (msg : String)
  | interrupt
deriving DecidableEq, Repr

/-- Whether the outcome is a `KeyboardInterrupt`. -/
def ImportOutcome.isInterrupt : ImportOutcome → Bool
  | .interrupt => true
  | _ => false

/-- The list-comprehension of line 281-285: the module attributes that are
classes (`inspect.isclass`) and whose name does not start with `'__'`. -/
def importedClasses : ImportOutcome → List PyClass
  | .ok attrs =>
    attrs.filterMap
      (fun a =>
        match a.2 with
        | some c => if pyStartswith a.1 "__" then none else some c
        | none => none)
  | .err _ => []
  | .interrupt => []

/-- The observable result of one `_get_classes_from_module` call:
the returned class list (or `Except.error ()` when `raise_error` raised
`typer.Exit`), the final value of the process-wide `sys.path`, and the
diagnostic log, each entry being (module name, error text) of one bordered
error block (line 290-292). -/
structure ModuleLoadResult where
  result : Except Unit (List PyClass)
  sysPath : List String
  log : List (String × String)
deriving Repr

/-- `_get_classes_from_module` (line 261-294), with `sys.path` passed
explicitly.  `original_path = copy.deepcopy(sys.path)` is value-semantics
snapshotting; `sys.path.insert(0, module_path)` prepends the containing
directory; the restoring assignment `sys.path = original_path` (line 280) is
executed only on the success path, so on both `except` paths the inserted
directory stays in `sys.path`.  On `KeyboardInterrupt` the `raise_error`
call raises `typer.Exit` (modelled as `Except.error ()`); on any other
exception a bordered block naming the module and the error is printed and
`[]` is returned. -/
def _get_classes_from_module (sysPath : List String) (module_path : String)
    (outcome : ImportOutcome) : ModuleLoadResult :=
  let pn := _extract_module_name module_path
  match outcome with
  | .ok attrs =>
    { result := .ok (importedClasses (.ok attrs)),
      sysPath := sysPath,
      log := [] }
  | .err msg =>
    { result := .ok [],
      sysPath := pn.1 :: sysPath,
      log := [(pn.2, msg)] }
  | .interrupt =>
    { result := .error (),
      sysPath := pn.1 :: sysPath,
      log := [] }

/-- The `for f in _search_modules(path_str)` loop of line 352-353: each file
is loaded in turn, `classes_list.extend(...)` accumulates the results, and a
raised `typer.Exit` propagates immediately (later files are not processed). -/
def loadLoop (sysPath : List String) :
    List (String × ImportOutcome) → ModuleLoadResult
  | [] => { result := .ok [], sysPath := sysPath, log := [] }
  | (f, oc) :: rest =>
    let r := _get_classes_from_module sysPath f oc
    match r.result with
    | .error e => { result := .error e, sysPath := r.sysPath, log := r.log }
    | .ok cs =>
      let r2 := loadLoop r.sysPath rest
      { result := r2.result.map (fun cs2 => cs ++ cs2),
        sysPath := r2.sysPath,
        log := r.log ++ r2.log }

/-- The input to `load_classes_definition`: the path does not exist, or it is
a directory (its path string plus the `_search_modules` file list with each
file's import outcome), or it is a single file. -/
inductive SourceKind where
  | missing
  | dir (pathStr : String) (files : List (String × ImportOutcome))
  | file (pathStr : String) (outcome : ImportOutcome)
deriving DecidableEq, Repr

/-- Whether some file of the input has a `KeyboardInterrupt` outcome. -/
def srcHasInterrupt : SourceKind → Bool
  | .missing => false
  | .dir _ files => files.any (fun x => x.2.isInterrupt)
  | .file _ oc => oc.isInterrupt

/-- How a whole run ends abnormally: `fatalExit` is `typer.Exit` raised by
`raise_error` (styled message, non-zero exit); `crash` is an ordinary
exception escaping the pipeline (e.g. an `AttributeError` raised while
normalizing a loaded class on line 359 — unstyled, but also non-zero). -/
inductive RunExit where
  | fatalExit
  | crash
deriving DecidableEq, Repr

/-- The observable result of `load_classes_definition`. -/
structure LoadResult where
  result : Except RunExit (List ClassDef)
  sysPath : List String
  log : List (String × String)
deriving Repr

/-- The tail of `load_classes_definition` (line 357-361): normalize every
loaded class; a `none` from `_get_class_structure` models an exception
raised during normalization, which escapes uncaught. -/
def finishLoad (r : ModuleLoadResult) : LoadResult :=
  match r.result with
  | .error _ => { result := .error .fatalExit, sysPath := r.sysPath, log := r.log }
  | .ok cs =>
    match cs.mapM _get_class_structure with
    | some defs => { result := .ok defs, sysPath := r.sysPath, log := r.log }
    | none => { result := .error .crash, sysPath := r.sysPath, log := r.log }

/-- `load_classes_definition` (line 319-361), with `sys.path` passed
explicitly.  A missing path calls `raise_error` (fatal `typer.Exit`); a
directory input does `sys.path.insert(0, path_str)` — never removed — and
loops over the discovered files; a single-file input loads that one file. -/
def load_classes_definition (sysPath : List String) (source : SourceKind) :
    LoadResult :=
  match source with
  | .missing =>
    { result := .error .fatalExit, sysPath := sysPath, log := [] }
  | .dir p files => finishLoad (loadLoop (p :: sysPath) files)
  | .file f oc => finishLoad ( _get_classes_from_module sysPath f oc)

-- String helper lemmas (the embedding's own, to keep proofs elementary).

/-- A classic-style probe class `m.K`: one plain attribute `x` whose
annotation is the reference under test, one method `f` whose annotation `a`
is that same reference, and one proper base `bm.B`. -/
def probeClassic (r : PyRef) : PyClass :=
  { module := "m", name := "K",
    dict := [("x", ⟨.plain, []⟩), ("f", ⟨.function, [("a", r)]⟩)],
    annotations := [("x", r)],
    dataclassFields := [],
    isDataclass := false,
    mro := [⟨"m", "K"⟩, ⟨"bm", "B"⟩, ⟨"builtins", "object"⟩] }

/-- A declarative-style probe class `m.K`: one declared field `x` whose
declared type is the reference under test. -/
def probeDc (r : PyRef) : PyClass :=
  { module := "m", name := "K",
    dict := [],
    annotations := [("x", r)],
    dataclassFields := [("x", r)],
    isDataclass := true,
    mro := [⟨"m", "K"⟩, ⟨"builtins", "object"⟩] }

/-- Declarative-style entity `@dataclass class K: x: int` in module `m`. -/
def dcEntity : PyClass :=
  { module := "m", name := "K", dict := [],
    annotations := [("x", .qualified "builtins" "int")],
    dataclassFields := [("x", .qualified "builtins" "int")],
    isDataclass := true,
    mro := [⟨"m", "K"⟩, ⟨"builtins", "object"⟩] }

/-- Classic-style entity `class K: x: int = 0` in module `m` (the default
value is what puts `x` into the class `__dict__`); structurally identical to
`dcEntity`: same field name and type annotation, no methods, no bases. -/
def classicEntity : PyClass :=
  { module := "m", name := "K", dict := [("x", ⟨.plain, []⟩)],
    annotations := [("x", .qualified "builtins" "int")],
    dataclassFields := [], isDataclass := false,
    mro := [⟨"m", "K"⟩, ⟨"builtins", "object"⟩] }

/-- Build a class of either style (`isDc` selects the path) from identical
module, name, `__dict__`, annotations and mro, with no declared dataclass
fields. -/
def mkStyled (isDc : Bool) (m n : String) (dict : List (String × PyMember))
    (anns : List (String × PyRef)) (mro : List ClassRef) : PyClass :=
  { module := m, name := n, dict := dict, annotations := anns,
    dataclassFields := [], isDataclass := isDc, mro := mro }

/-- An entity `m1.A` whose ancestor resolution order contains a distinct
ancestor class `m2.A` that happens to share the bare name `A`. -/
def baseNameClash : PyClass :=
  { module := "m1", name := "A", dict := [], annotations := [],
    dataclassFields := [], isDataclass := false,
    mro := [⟨"m1", "A"⟩, ⟨"m2", "A"⟩, ⟨"builtins", "object"⟩] }

/-- A plain derived entity `m.D` whose only proper ancestor is `m.B`. -/
def plainDerived : PyClass :=
  { module := "m", name := "D", dict := [], annotations := [],
    dataclassFields := [], isDataclass := false,
    mro := [⟨"m", "D"⟩, ⟨"m", "B"⟩, ⟨"builtins", "object"⟩] }

/-- A class `m.S` holding a single member `sm` through a `staticmethod`
wrapper. -/
def staticHolder : PyClass :=
  { module := "m", name := "S",
    dict := [("sm", ⟨.staticmethodWrap, []⟩)],
    annotations := [], dataclassFields := [], isDataclass := false,
    mro := [⟨"m", "S"⟩, ⟨"builtins", "object"⟩] }

/-- Unfold `String.append` to the character data. -/
theorem string_data_append (s t : String) : (s ++ t).data = s.data ++ t.data := by
  cases s; cases t; rfl

/-- Strings with equal character data are equal. -/
theorem string_eq_of_data {s t : String} (h : s.data = t.data) : s = t :=
  congrArg String.mk h

/-- String append is associative. -/
theorem string_append_assoc (a b c : String) :
    (a ++ b) ++ c = a ++ (b ++ c) := by
  apply string_eq_of_data
  simp [string_data_append]

/-- A string whose data is a cons is not the empty string. -/
theorem string_ne_empty_of_data {s : String} (h : s.data ≠ []) : s ≠ "" := by
  intro he
  exact h (by simpa using congrArg String.data he)

/-- `joinSep` of a list headed by a nonempty string is nonempty. -/
theorem joinSep_cons_ne_empty (sep x : String) (xs : List String)
    (hx : x.data ≠ []) : joinSep sep (x :: xs) ≠ "" := by
  cases xs with
  | nil => exact string_ne_empty_of_data hx
  | cons b rest =>
    apply string_ne_empty_of_data
    rw [joinSep, string_data_append, string_data_append]
    intro hc
    rcases List.append_eq_nil.mp hc with ⟨h1, _⟩
    rcases List.append_eq_nil.mp h1 with ⟨h2, _⟩
    exact hx h2

/-- A fully qualified name `m ++ "." ++ n` has nonempty data. -/
theorem qualified_data_ne_nil (m n : String) :
    (m ++ "." ++ n).data ≠ [] := by
  rw [string_data_append, string_data_append]
  intro hc
  rcases List.append_eq_nil.mp hc with ⟨h1, _⟩
  rcases List.append_eq_nil.mp h1 with ⟨_, h2⟩
  exact (by decide : (".".data : List Char) ≠ []) h2

/-- `(pyRstrip chars s).data`, unfolded. -/
theorem pyRstrip_data (chars : List Char) (s : String) :
    (pyRstrip chars s).data
      = (s.data.reverse.dropWhile (fun c => chars.contains c)).reverse := rfl

/-- `dropWhile` never lengthens a list. -/
theorem dropWhile_length_le {α : Type} (p : α → Bool) (l : List α) :
    (l.dropWhile p).length ≤ l.length := by
  induction l with
  | nil => simp [List.dropWhile]
  | cons a l ih =>
    rw [List.dropWhile_cons]
    by_cases h : p a
    · simp only [h, if_true]
      exact Nat.le_succ_of_le ih
    · simp [h]

/-- C9: the module name used for loading and diagnostics is derived from the
file's base name by `str.rstrip('.py')`, which strips **all** trailing `'.'`,
`'p'`, `'y'` characters, not the `.py` extension; hence for every path whose
last component is `stem ++ ".py"` with `stem` ending in one of those three
characters, the derived module name differs from `stem`, and in particular
`'happy.py'` yields `'ha'`. -/
theorem C9_module_name_rstrip (p stem : String) (c : Char)
    (hlast : ((pySplitChar '/' p.data).map (fun l => (⟨l⟩ : String))).getLastD ""
      = stem ++ ".py")
    (hend : ∃ pre, stem.data = pre ++ [c])
    (hset : c ∈ ['.', 'p', 'y']) :
    (_extract_module_name p).2 = pyRstrip ['.', 'p', 'y'] (stem ++ ".py")
    ∧ (_extract_module_name p).2 ≠ stem
    ∧ (_extract_module_name "happy.py").2 = "ha" := by
  obtain ⟨pre, hpre⟩ := hend
  have heq : (_extract_module_name p).2 = pyRstrip ['.', 'p', 'y'] (stem ++ ".py") := by
    show pyRstrip ['.', 'p', 'y']
        (((pySplitChar '/' p.data).map (fun l => (⟨l⟩ : String))).getLastD "")
      = pyRstrip ['.', 'p', 'y'] (stem ++ ".py")
    rw [hlast]
  refine ⟨heq, ?_, by decide⟩
  rw [heq]
  have hdata : (stem ++ ".py").data.reverse = 'y' :: 'p' :: '.' :: stem.data.reverse := by
    rw [string_data_append]
    rw [show (".py" : String).data = ['.', 'p', 'y'] from rfl]
    simp
  have hrev : stem.data.reverse = c :: pre.reverse := by
    rw [hpre]; simp
  have hPc : (['.', 'p', 'y'].contains c) = true := by
    simp only [List.mem_cons, List.not_mem_nil, or_false] at hset
    rcases hset with h | h | h <;> subst h <;> decide
  have hdrop : ((stem ++ ".py").data.reverse.dropWhile
        (fun ch => ['.', 'p', 'y'].contains ch))
      = pre.reverse.dropWhile (fun ch => ['.', 'p', 'y'].contains ch) := by
    rw [hdata, hrev]
    show List.dropWhile (fun ch => ['.', 'p', 'y'].contains ch) (c :: pre.reverse)
      = pre.reverse.dropWhile (fun ch => ['.', 'p', 'y'].contains ch)
    rw [List.dropWhile_cons, hPc]
    simp
  have hlt : ((stem ++ ".py").data.reverse.dropWhile
        (fun ch => ['.', 'p', 'y'].contains ch)).length < stem.data.length := by
    rw [hdrop, hpre]
    have h1 := dropWhile_length_le (fun ch => ['.', 'p', 'y'].contains ch) pre.reverse
    simp only [List.length_append, List.length_reverse, List.length_cons,
      List.length_nil] at *
    omega
  intro hbad
  have hd := congrArg (fun t : String => t.data.length) hbad
  simp only [pyRstrip_data, List.length_reverse] at hd
  exact absurd hd (Nat.ne_of_lt hlt)

theorem C9_witness :
    (((pySplitChar '/' ("happy.py" : String).data).map
        (fun l => (⟨l⟩ : String))).getLastD "" = "happy" ++ ".py")
    ∧ (_extract_module_name "happy.py").2 ≠ "happy"
    ∧ (_extract_module_name "happy.py").2 = "ha" :=
  ⟨by decide,
   (C9_module_name_rstrip "happy.py" "happy" 'y' (by decide)
      ⟨['h', 'a', 'p', 'p'], rfl⟩ (by decide)).2.1,
   (C9_module_name_rstrip "happy.py" "happy" 'y' (by decide)
      ⟨['h', 'a', 'p', 'p'], rfl⟩ (by decide)).2.2⟩

/-- C3: the `sys.path` mutation is **not** restored on every exit path.  On a
successful load it is restored, but when the import raises an ordinary
exception (caught per-file failure) or a `KeyboardInterrupt` (propagated
fatal failure) the inserted directory stays in `sys.path`; and on directory
input `load_classes_definition` inserts the directory itself and never
removes it, even on a fully successful run. -/
theorem C3_sys_path_not_restored :
    (_get_classes_from_module [] "pkg/m.py" (.ok [])).sysPath = []
    ∧ (_get_classes_from_module [] "pkg/m.py" (.err "boom")).sysPath = ["pkg"]
    ∧ (_get_classes_from_module [] "pkg/m.py" .interrupt).sysPath = ["pkg"]
    ∧ (["pkg"] : List String) ≠ ([] : List String)
    ∧ (load_classes_definition [] (.dir "d" [])).sysPath = ["d"]
    ∧ (["d"] : List String) ≠ ([] : List String) :=
  ⟨rfl, rfl, rfl, by decide, rfl, by decide⟩

/-- C6: the diagram has one node per entity, in order, keyed by the entity's
fully qualified name and labeled by the UML formatter; the edge set contains
`(base, derived)` exactly when some entity lists the base, and it has no
duplicate pairs. -/
theorem C6_diagram_nodes_and_edges (L : List ClassDef) (e : String × String) :
    (create_diagram L).nodes = L.map (fun k => (k.name, _get_entity_class_uml k))
    ∧ (e ∈ (create_diagram L).edges ↔ ∃ k ∈ L, ∃ b ∈ k.bases, e = (b, k.name))
    ∧ (create_diagram L).edges.val.Nodup := by
  refine ⟨rfl, ?_, (create_diagram L).edges.nodup⟩
  simp only [create_diagram, List.mem_toFinset, List.mem_flatMap, List.mem_map]
  constructor
  · rintro ⟨k, hk, b, hb, he⟩
    exact ⟨k, hk, b, hb, he.symm⟩
  · rintro ⟨k, hk, b, hb, he⟩
    exact ⟨k, hk, b, hb, he.symm⟩

/-- `"" ++ s = s` for strings. -/
theorem string_empty_append (s : String) : "" ++ s = s := by
  apply string_eq_of_data
  rw [string_data_append]
  rfl

/-- A line rendered with the `+` glyph never equals a line rendered with the
`-` glyph, whatever follows the glyph. -/
theorem plus_ne_dash_line (s t : String) : "+ " ++ s ≠ "- " ++ t := by
  intro h
  have h1 : ("+ " ++ s).data = '+' :: ' ' :: s.data := by
    rw [string_data_append]; rfl
  have h2 : ("- " ++ t).data = '-' :: ' ' :: t.data := by
    rw [string_data_append]; rfl
  have hd := congrArg String.data h
  rw [h1, h2] at hd
  rw [List.cons.injEq] at hd
  exact absurd hd.1 (by decide)

/-- C7: the visibility glyph of a rendered field or method line is `-` if and
only if the name starts with `'_'`, else `+`; in particular a field named
`_private` renders as `- _private: <type>` and a method named
`public_method` renders as `+ public_method()`. -/
theorem C7_visibility_glyph (k v m : String) :
    (pyStartswith k "_" = true → fieldLine (k, v) = "- " ++ k ++ ": " ++ v)
    ∧ (pyStartswith k "_" = false → fieldLine (k, v) = "+ " ++ k ++ ": " ++ v)
    ∧ (fieldLine (k, v) = "- " ++ k ++ ": " ++ v → pyStartswith k "_" = true)
    ∧ (pyStartswith m "_" = true → methodLine m = "- " ++ m ++ "()")
    ∧ (pyStartswith m "_" = false → methodLine m = "+ " ++ m ++ "()")
    ∧ (methodLine m = "- " ++ m ++ "()" → pyStartswith m "_" = true)
    ∧ fieldLine ("_private", v) = "- _private: " ++ v
    ∧ methodLine "public_method" = "+ public_method()" := by
  have hf1 : pyStartswith k "_" = true → fieldLine (k, v) = "- " ++ k ++ ": " ++ v := by
    intro hk
    show (if pyStartswith k "_" then "-" else "+") ++ " " ++ k ++ ": " ++ v
      = "- " ++ k ++ ": " ++ v
    rw [hk]; rfl
  have hf2 : pyStartswith k "_" = false → fieldLine (k, v) = "+ " ++ k ++ ": " ++ v := by
    intro hk
    show (if pyStartswith k "_" then "-" else "+") ++ " " ++ k ++ ": " ++ v
      = "+ " ++ k ++ ": " ++ v
    rw [hk]; rfl
  have hm1 : pyStartswith m "_" = true → methodLine m = "- " ++ m ++ "()" := by
    intro hm
    show (if pyStartswith m "_" then "-" else "+") ++ " " ++ m ++ "()" = "- " ++ m ++ "()"
    rw [hm]; rfl
  have hm2 : pyStartswith m "_" = false → methodLine m = "+ " ++ m ++ "()" := by
    intro hm
    show (if pyStartswith m "_" then "-" else "+") ++ " " ++ m ++ "()" = "+ " ++ m ++ "()"
    rw [hm]; rfl
  refine ⟨hf1, hf2, ?_, hm1, hm2, ?_, rfl, rfl⟩
  · intro hline
    cases hh : pyStartswith k "_" with
    | true => rfl
    | false =>
      exfalso
      rw [hf2 hh] at hline
      apply plus_ne_dash_line (k ++ (": " ++ v)) (k ++ (": " ++ v))
      calc "+ " ++ (k ++ (": " ++ v)) = "+ " ++ k ++ ": " ++ v := by
            simp only [string_append_assoc]
        _ = "- " ++ k ++ ": " ++ v := hline
        _ = "- " ++ (k ++ (": " ++ v)) := by simp only [string_append_assoc]
  · intro hline
    cases hh : pyStartswith m "_" with
    | true => rfl
    | false =>
      exfalso
      rw [hm2 hh] at hline
      apply plus_ne_dash_line (m ++ "()") (m ++ "()")
      calc "+ " ++ (m ++ "()") = "+ " ++ m ++ "()" := by
            simp only [string_append_assoc]
        _ = "- " ++ m ++ "()" := hline
        _ = "- " ++ (m ++ "()") := by simp only [string_append_assoc]

theorem C7_witness :
    pyStartswith "_private" "_" = true
    ∧ fieldLine ("_private", "int") = "- " ++ "_private" ++ ": " ++ "int"
    ∧ pyStartswith "public_method" "_" = false
    ∧ methodLine "public_method" = "+ " ++ "public_method" ++ "()" :=
  ⟨by decide,
   (C7_visibility_glyph "_private" "int" "public_method").1 (by decide),
   by decide,
   (C7_visibility_glyph "_private" "int" "public_method").2.2.2.2.1 (by decide)⟩

/-- C8: the label always has the shape `{name [(bases)] | fields | methods}`
with the two blocks `'\\l'`-joined and each terminated by a trailing `'\\l'`
even when empty, and with the parenthesized base list omitted entirely when
the entity has no bases. -/
theorem C8_label_shape (cs : ClassDef) :
    _get_entity_class_uml cs =
      "\x7b" ++ (if joinSep ", " cs.bases = "" then cs.name
        else cs.name ++ " (" ++ joinSep ", " cs.bases ++ ")")
      ++ "|" ++ (joinSep "\\l" (cs.fields.map fieldLine) ++ "\\l")
      ++ "|" ++ (joinSep "\\l" (cs.methods.map (fun mm => methodLine mm.1)) ++ "\\l")
      ++ "\x7d"
    ∧ (cs.bases = [] →
        _get_entity_class_uml cs =
          "\x7b" ++ cs.name
          ++ "|" ++ (joinSep "\\l" (cs.fields.map fieldLine) ++ "\\l")
          ++ "|" ++ (joinSep "\\l" (cs.methods.map (fun mm => methodLine mm.1)) ++ "\\l")
          ++ "\x7d")
    ∧ (cs.fields = [] → cs.methods = [] → cs.bases = [] →
        _get_entity_class_uml cs
          = "\x7b" ++ cs.name ++ "|" ++ "\\l" ++ "|" ++ "\\l" ++ "\x7d") := by
  have hshape : _get_entity_class_uml cs =
      "\x7b" ++ (if joinSep ", " cs.bases = "" then cs.name
        else cs.name ++ " (" ++ joinSep ", " cs.bases ++ ")")
      ++ "|" ++ (joinSep "\\l" (cs.fields.map fieldLine) ++ "\\l")
      ++ "|" ++ (joinSep "\\l" (cs.methods.map (fun mm => methodLine mm.1)) ++ "\\l")
      ++ "\x7d" := rfl
  refine ⟨hshape, ?_, ?_⟩
  · intro hb
    rw [hshape, hb]
    rfl
  · intro hf hm hb
    rw [hshape, hb, hf, hm]
    show "\x7b" ++ cs.name ++ "|" ++ ("" ++ "\\l") ++ "|" ++ ("" ++ "\\l") ++ "\x7d"
      = "\x7b" ++ cs.name ++ "|" ++ "\\l" ++ "|" ++ "\\l" ++ "\x7d"
    rw [string_empty_append]

theorem C8_witness :
    (({ name := "m.K" } : ClassDef).fields = []
    ∧ ({ name := "m.K" } : ClassDef).methods = []
    ∧ ({ name := "m.K" } : ClassDef).bases = [])
    ∧ _get_entity_class_uml { name := "m.K" }
      = "\x7b" ++ "m.K" ++ "|" ++ "\\l" ++ "|" ++ "\\l" ++ "\x7d" :=
  ⟨⟨rfl, rfl, rfl⟩, (C8_label_shape { name := "m.K" }).2.2 rfl rfl rfl⟩

/-- C1 (amended): the three-tier `_get_fullname` rule is applied to
classic-style field types, to method parameter/return types, to the entity
name and to base names — but a declarative-style (dataclass) field type is
rendered with only the bare `__name__` of the declared type, not with
`_get_fullname`. -/
theorem C1_fullname_uniformity (r : PyRef) :
    (_get_classic_class_structure (probeClassic r)).fields
      = [("x", _get_fullname r)]
    ∧ _get_methods (probeClassic r) = [("f", [("a", _get_fullname r)])]
    ∧ (_get_class_structure (probeClassic r)).map ClassDef.name
      = some ( _get_fullname (.qualified "m" "K"))
    ∧ (_get_class_structure (probeClassic r)).map ClassDef.bases
      = some [ _get_fullname (.qualified "bm" "B")]
    ∧ (_get_dataclass_structure (probeDc r)).map ClassDef.fields
      = (pyName r).map (fun nm => [("x", nm)]) := by
  refine ⟨?_, ?_, ?_, ?_, ?_⟩ <;> cases r <;> rfl

/-- C1 counterexample: for the declared field type `int` (which has
`__module__ = "builtins"` and `__name__ = "int"`, so the three-tier rule
yields `"builtins.int"`), the dataclass extraction renders `"int"` — the
three-tier rule is **not** applied to dataclass field types. -/
theorem C1_counterexample :
    (_get_dataclass_structure (probeDc (.qualified "builtins" "int"))).map
        ClassDef.fields
      = some [("x", "int")]
    ∧ _get_fullname (.qualified "builtins" "int") = "builtins.int"
    ∧ (_get_dataclass_structure (probeDc (.qualified "builtins" "int"))).map
        ClassDef.fields
      ≠ some [("x", _get_fullname (.qualified "builtins" "int"))] :=
  ⟨rfl, rfl, by decide⟩

/-- C2 counterexample: two structurally identical entities — one
declarative-style, one classic-style, both with the single field `x: int`,
no methods and no bases — produce different labels: the dataclass path
renders the field type as `int`, the classic path as `builtins.int`. -/
theorem C2_counterexample :
    (_get_class_structure dcEntity).map _get_entity_class_uml
      = some "\x7bm.K|+ x: int\\l|\\l\x7d"
    ∧ (_get_class_structure classicEntity).map _get_entity_class_uml
      = some "\x7bm.K|+ x: builtins.int\\l|\\l\x7d"
    ∧ (_get_class_structure dcEntity).map _get_entity_class_uml
      ≠ (_get_class_structure classicEntity).map _get_entity_class_uml :=
  ⟨rfl, rfl, by decide⟩

/-- C2 (amended): style-transparency does hold for entities whose own dict
members are all methods (or dunder-named): identical name, module, members
and mro then yield byte-identical labels through the two extraction paths.
(With plain data fields present the two paths differ, see the
counterexample.) -/
theorem C2_label_style_transparent (m n : String)
    (dict : List (String × PyMember)) (anns : List (String × PyRef))
    (mro : List ClassRef)
    (h : ∀ kv ∈ dict, kv.2.kind = PyKind.function ∨ pyStartswith kv.1 "__" = true) :
    (_get_class_structure (mkStyled true m n dict anns mro)).map
        _get_entity_class_uml
      = (_get_class_structure (mkStyled false m n dict anns mro)).map
        _get_entity_class_uml := by
  have hfil : dict.filter
      (fun kv => !(pyStartswith kv.1 "__")
        && !((_get_methods (mkStyled false m n dict anns mro)).any
              (fun mm => mm.1 == kv.1))) = [] := by
    rw [List.filter_eq_nil_iff]
    intro kv hkv
    cases hs : pyStartswith kv.1 "__" with
    | true => simp [hs]
    | false =>
      have hfun : kv.2.kind = PyKind.function := by
        rcases h kv hkv with hf | hss
        · exact hf
        · rw [hss] at hs; cases hs
      have hmem : (kv.1, _get_method_annotation kv.2.anns)
          ∈ _get_methods (mkStyled false m n dict anns mro) := by
        show (kv.1, _get_method_annotation kv.2.anns)
          ∈ (dict.filter
              (fun kv => !(pyStartswith kv.1 "__") && kv.2.kind.isFunction)).map
            (fun kv => (kv.1, _get_method_annotation kv.2.anns))
        apply List.mem_map.mpr
        refine ⟨kv, List.mem_filter.mpr ⟨hkv, ?_⟩, rfl⟩
        rw [hs, hfun]
        rfl
      have hany : ((_get_methods (mkStyled false m n dict anns mro)).any
          (fun mm => mm.1 == kv.1)) = true := by
        apply List.any_eq_true.mpr
        exact ⟨(kv.1, _get_method_annotation kv.2.anns), hmem, by simp⟩
      simp [hs, hany]
  have hT : _get_class_structure (mkStyled true m n dict anns mro)
      = some { module := m, name := _get_fullname (PyRef.qualified m n),
               bases := (_get_base_classes (mkStyled true m n dict anns mro)).map
                 (fun c => _get_fullname c.ref),
               fields := [],
               methods := _get_methods (mkStyled true m n dict anns mro) } := rfl
  have hC : _get_class_structure (mkStyled false m n dict anns mro)
      = some { module := m, name := _get_fullname (PyRef.qualified m n),
               bases := (_get_base_classes (mkStyled false m n dict anns mro)).map
                 (fun c => _get_fullname c.ref),
               fields := (dict.filter
                   (fun kv => !(pyStartswith kv.1 "__")
                     && !((_get_methods (mkStyled false m n dict anns mro)).any
                           (fun mm => mm.1 == kv.1)))).map
                 (fun kv => (kv.1,
                   ((_get_annotations (mkStyled false m n dict anns mro)).lookup
                       kv.1).getD "")),
               methods := _get_methods (mkStyled false m n dict anns mro) } := rfl
  rw [hT, hC, hfil]
  rfl

theorem C2_witness :
    (∀ kv ∈ [(("run" : String), (⟨PyKind.function, []⟩ : PyMember))],
        kv.2.kind = PyKind.function ∨ pyStartswith kv.1 "__" = true)
    ∧ (_get_class_structure (mkStyled true "m" "K"
          [("run", ⟨PyKind.function, []⟩)] []
          [⟨"m", "K"⟩, ⟨"builtins", "object"⟩])).map _get_entity_class_uml
      = (_get_class_structure (mkStyled false "m" "K"
          [("run", ⟨PyKind.function, []⟩)] []
          [⟨"m", "K"⟩, ⟨"builtins", "object"⟩])).map _get_entity_class_uml :=
  ⟨by decide,
   C2_label_style_transparent "m" "K" [("run", ⟨PyKind.function, []⟩)] []
     [⟨"m", "K"⟩, ⟨"builtins", "object"⟩] (by decide)⟩

/-- C4 counterexample: `m2.A` is a genuine ancestor of `m1.A` — neither the
universal root type nor the entity itself — so the mro with root and self
removed is `[m2.A]` and the claimed bases list is `["m2.A"]`; but the code
filters the mro by **bare name** (`c.__name__ not in ('object',
klass.__name__)`) and therefore drops it, producing `[]`. -/
theorem C4_counterexample :
    (_get_class_structure baseNameClash).map ClassDef.bases = some []
    ∧ (_get_class_structure baseNameClash).map ClassDef.bases ≠ some ["m2.A"] :=
  ⟨rfl, by decide⟩

/-- C4 (amended): the bases sequence is the mro filtered by **bare name** —
every entry whose bare name is neither `'object'` nor the entity's own bare
name — in resolution order, each rendered as its fully qualified
`module.name`; and when that list is nonempty the label's parenthesized list
is exactly its comma-separated join. -/
theorem C4_bases_from_mro (klass : PyClass) (cs : ClassDef) (b : ClassRef)
    (rest : List ClassRef)
    (h : _get_class_structure klass = some cs)
    (hb : _get_base_classes klass = b :: rest) :
    cs.bases = (klass.mro.filter
        (fun c => !(c.name == "object") && !(c.name == klass.name))).map
      (fun c => c.module ++ "." ++ c.name)
    ∧ ∃ tail, _get_entity_class_uml cs
        = "\x7b" ++ cs.name ++ " (" ++ joinSep ", " cs.bases ++ ")" ++ "|" ++ tail := by
  rcases Option.map_eq_some'.mp h with ⟨a, _, hf⟩
  have hbases : cs.bases
      = (_get_base_classes klass).map (fun c => _get_fullname c.ref) := by
    rw [← hf]
  constructor
  · rw [hbases]; rfl
  · have hne : joinSep ", " cs.bases ≠ "" := by
      rw [hbases, hb]
      show joinSep ", "
          ((b.module ++ "." ++ b.name) :: rest.map (fun c => _get_fullname c.ref))
        ≠ ""
      exact joinSep_cons_ne_empty _ _ _ (qualified_data_ne_nil b.module b.name)
    refine ⟨(joinSep "\\l" (cs.fields.map fieldLine) ++ "\\l") ++ "|"
        ++ (joinSep "\\l" (cs.methods.map (fun mm => methodLine mm.1)) ++ "\\l")
        ++ "\x7d", ?_⟩
    have hshape : _get_entity_class_uml cs =
        "\x7b" ++ (if joinSep ", " cs.bases = "" then cs.name
          else cs.name ++ " (" ++ joinSep ", " cs.bases ++ ")")
        ++ "|" ++ (joinSep "\\l" (cs.fields.map fieldLine) ++ "\\l")
        ++ "|" ++ (joinSep "\\l" (cs.methods.map (fun mm => methodLine mm.1)) ++ "\\l")
        ++ "\x7d" := rfl
    rw [hshape, if_neg hne]
    apply string_eq_of_data
    simp [string_data_append, List.append_assoc]

theorem C4_witness :
    _get_class_structure plainDerived
      = some { name := "m.D", module := "m", bases := ["m.B"],
               fields := [], methods := [] }
    ∧ _get_base_classes plainDerived = [⟨"m", "B"⟩]
    ∧ ({ name := "m.D", module := "m", bases := ["m.B"],
         fields := [], methods := [] } : ClassDef).bases
      = (plainDerived.mro.filter
          (fun c => !(c.name == "object") && !(c.name == plainDerived.name))).map
        (fun c => c.module ++ "." ++ c.name)
    ∧ ∃ tail, _get_entity_class_uml
        { name := "m.D", module := "m", bases := ["m.B"],
          fields := [], methods := [] }
      = "\x7b" ++ "m.D" ++ " (" ++ joinSep ", " ["m.B"] ++ ")" ++ "|" ++ tail :=
  ⟨rfl, rfl,
   (C4_bases_from_mro plainDerived
      { name := "m.D", module := "m", bases := ["m.B"], fields := [], methods := [] }
      ⟨"m", "B"⟩ [] rfl rfl).1,
   (C4_bases_from_mro plainDerived
      { name := "m.D", module := "m", bases := ["m.B"], fields := [], methods := [] }
      ⟨"m", "B"⟩ [] rfl rfl).2⟩

/-- `finishLoad` raises the styled fatal exit exactly when the loader phase
raised one (a normalization failure is a `crash`, not a styled exit). -/
theorem finishLoad_fatal_iff (r : ModuleLoadResult) :
    ((finishLoad r).result = Except.error RunExit.fatalExit
      ↔ r.result = Except.error ()) := by
  obtain ⟨res, sp, lg⟩ := r
  cases res with
  | error e => cases e; simp [finishLoad]
  | ok cs =>
    simp only [finishLoad]
    cases h : cs.mapM _get_class_structure with
    | none => simp [h]
    | some defs => simp [h]

/-- The file loop raises `typer.Exit` exactly when some file's import is
interrupted. -/
theorem loadLoop_error_iff (files : List (String × ImportOutcome)) :
    ∀ st : List String,
      ((loadLoop st files).result = Except.error ()
        ↔ files.any (fun x => x.2.isInterrupt) = true) := by
  induction files with
  | nil => intro st; simp [loadLoop]
  | cons fo rest ih =>
    intro st
    obtain ⟨f, oc⟩ := fo
    cases oc with
    | ok attrs =>
      have hstep : (loadLoop st ((f, ImportOutcome.ok attrs) :: rest)).result
          = (loadLoop st rest).result.map
              (fun cs2 => importedClasses (.ok attrs) ++ cs2) := rfl
      rw [hstep]
      cases hr : (loadLoop st rest).result with
      | error e =>
        cases e
        exact iff_of_true rfl ((ih st).mp hr)
      | ok cs =>
        refine iff_of_false (fun h => by simp [Except.map] at h) ?_
        intro hx
        have hx2 : (rest.any fun x => x.2.isInterrupt) = true := hx
        rw [← ih st, hr] at hx2
        simp at hx2
    | err msg =>
      have hstep : (loadLoop st ((f, ImportOutcome.err msg) :: rest)).result
          = (loadLoop ((_extract_module_name f).1 :: st) rest).result.map
              (fun cs2 => ([] : List PyClass) ++ cs2) := rfl
      rw [hstep]
      cases hr : (loadLoop ((_extract_module_name f).1 :: st) rest).result with
      | error e =>
        cases e
        exact iff_of_true rfl ((ih ((_extract_module_name f).1 :: st)).mp hr)
      | ok cs =>
        refine iff_of_false (fun h => by simp [Except.map] at h) ?_
        intro hx
        have hx2 : (rest.any fun x => x.2.isInterrupt) = true := hx
        rw [← ih ((_extract_module_name f).1 :: st), hr] at hx2
        simp at hx2
    | interrupt =>
      simp [loadLoop, _get_classes_from_module, ImportOutcome.isInterrupt]

/-- When no import is interrupted, the loop completes: every file is
processed and the run aggregates each file's classes (a failed file
contributing `[]`). -/
theorem loadLoop_all_ok (files : List (String × ImportOutcome)) :
    ∀ st : List String, files.all (fun x => !x.2.isInterrupt) = true →
      (loadLoop st files).result
        = Except.ok (files.flatMap (fun x => importedClasses x.2)) := by
  induction files with
  | nil => intro st _; rfl
  | cons fo rest ih =>
    obtain ⟨f, oc⟩ := fo
    intro st hall
    simp only [List.all_cons, Bool.and_eq_true] at hall
    cases oc with
    | ok attrs =>
      have hstep : (loadLoop st ((f, ImportOutcome.ok attrs) :: rest)).result
          = (loadLoop st rest).result.map
              (fun cs2 => importedClasses (.ok attrs) ++ cs2) := rfl
      rw [hstep, ih st hall.2]
      rfl
    | err msg =>
      have hstep : (loadLoop st ((f, ImportOutcome.err msg) :: rest)).result
          = (loadLoop ((_extract_module_name f).1 :: st) rest).result.map
              (fun cs2 => ([] : List PyClass) ++ cs2) := rfl
      rw [hstep, ih ((_extract_module_name f).1 :: st) hall.2]
      rfl
    | interrupt => simp [ImportOutcome.isInterrupt] at hall

/-- C5: the run raises the styled non-zero exit exactly when the input path
does not exist or some load is interrupted; an ordinary import error is
caught inside the loader, logged with the module's identity and the error
text, makes that file contribute zero entities, and (absent interrupts) the
loop runs to completion aggregating every remaining file's classes. -/
theorem C5_error_handling (st : List String) (src : SourceKind) (f msg : String) :
    ((load_classes_definition st src).result = Except.error RunExit.fatalExit
      ↔ (src = SourceKind.missing ∨ srcHasInterrupt src = true))
    ∧ ( _get_classes_from_module st f (.err msg)).result = Except.ok []
    ∧ ( _get_classes_from_module st f (.err msg)).log
      = [((_extract_module_name f).2, msg)]
    ∧ (∀ p files, files.all (fun x => !x.2.isInterrupt) = true →
        (loadLoop (p :: st) files).result
          = Except.ok (files.flatMap (fun x => importedClasses x.2))) := by
  refine ⟨?_, rfl, rfl, fun p files hall => loadLoop_all_ok files (p :: st) hall⟩
  cases src with
  | missing => simp [load_classes_definition, srcHasInterrupt]
  | dir p files =>
    rw [show load_classes_definition st (.dir p files)
        = finishLoad (loadLoop (p :: st) files) from rfl,
      finishLoad_fatal_iff, loadLoop_error_iff]
    simp [srcHasInterrupt]
  | file fp oc =>
    rw [show load_classes_definition st (.file fp oc)
        = finishLoad ( _get_classes_from_module st fp oc) from rfl,
      finishLoad_fatal_iff]
    cases oc <;>
      simp [_get_classes_from_module, srcHasInterrupt, ImportOutcome.isInterrupt]

theorem C5_witness :
    ([(("a.py" : String), ImportOutcome.err "boom")].all
        (fun x => !x.2.isInterrupt) = true)
    ∧ (loadLoop ["d"] [("a.py", ImportOutcome.err "boom")]).result
      = Except.ok ([(("a.py" : String), ImportOutcome.err "boom")].flatMap
          (fun x => importedClasses x.2)) :=
  ⟨by decide,
   (C5_error_handling [] SourceKind.missing "a.py" "boom").2.2.2
     "d" [("a.py", ImportOutcome.err "boom")] (by decide)⟩

/-- In an association list whose keys are nodup (a Python dict), a key
determines its value. -/
theorem assoc_value_unique {α β : Type} {l : List (α × β)}
    (hnd : (l.map Prod.fst).Nodup) {k : α} {x y : β}
    (hx : (k, x) ∈ l) (hy : (k, y) ∈ l) : x = y := by
  induction l with
  | nil => cases hx
  | cons p rest ih =>
    rw [List.map_cons, List.nodup_cons] at hnd
    rcases List.mem_cons.mp hx with hx1 | hx2 <;>
      rcases List.mem_cons.mp hy with hy1 | hy2
    · have hxy : (k, x) = (k, y) := hx1.trans hy1.symm
      rw [Prod.mk.injEq] at hxy
      exact hxy.2
    · exfalso
      apply hnd.1
      have hk : p.1 = k := (congrArg Prod.fst hx1).symm
      rw [hk]
      exact List.mem_map.mpr ⟨(k, y), hy2, rfl⟩
    · exfalso
      apply hnd.1
      have hk : p.1 = k := (congrArg Prod.fst hy1).symm
      rw [hk]
      exact List.mem_map.mpr ⟨(k, x), hx2, rfl⟩
    · exact ih hnd.2 hx2 hy2

/-- C10: the methods mapping holds exactly the own-dict entries whose name
does not start with `'__'` and whose value is a plain function object; a
member held through a `staticmethod`/`classmethod` wrapper is never a
method, and (when not dunder-named) the classic extraction classifies it as
a field instead. -/
theorem C10_methods_plain_functions_only (klass : PyClass) (k : String)
    (a : List (String × String)) (mem : PyMember)
    (hnd : (klass.dict.map Prod.fst).Nodup) :
    ((k, a) ∈ _get_methods klass ↔
      ∃ mem2, (k, mem2) ∈ klass.dict ∧ pyStartswith k "__" = false
        ∧ mem2.kind = PyKind.function ∧ a = _get_method_annotation mem2.anns)
    ∧ ((k, mem) ∈ klass.dict →
        (mem.kind = PyKind.staticmethodWrap ∨ mem.kind = PyKind.classmethodWrap) →
        ∀ b, (k, b) ∉ _get_methods klass)
    ∧ ((k, mem) ∈ klass.dict →
        (mem.kind = PyKind.staticmethodWrap ∨ mem.kind = PyKind.classmethodWrap) →
        pyStartswith k "__" = false →
        ∃ v, (k, v) ∈ (_get_classic_class_structure klass).fields) := by
  have hiff : ∀ a2 : List (String × String),
      ((k, a2) ∈ _get_methods klass ↔
        ∃ mem2, (k, mem2) ∈ klass.dict ∧ pyStartswith k "__" = false
          ∧ mem2.kind = PyKind.function
          ∧ a2 = _get_method_annotation mem2.anns) := by
    intro a2
    constructor
    · intro hmem
      rcases List.mem_map.mp hmem with ⟨kv, hfil, heq⟩
      rcases List.mem_filter.mp hfil with ⟨hdict, hcond⟩
      have hcond2 : (!(pyStartswith kv.1 "__") && kv.2.kind.isFunction) = true := hcond
      rw [Bool.and_eq_true, Bool.not_eq_true'] at hcond2
      have hk : kv.1 = k := congrArg Prod.fst heq
      have ha : _get_method_annotation kv.2.anns = a2 := congrArg Prod.snd heq
      refine ⟨kv.2, ?_, ?_, ?_, ha.symm⟩
      · rw [← hk, Prod.mk.eta]; exact hdict
      · rw [← hk]; exact hcond2.1
      · cases hknd : kv.2.kind with
        | function => rfl
        | staticmethodWrap => rw [hknd] at hcond2; exact absurd hcond2.2 (by decide)
        | classmethodWrap => rw [hknd] at hcond2; exact absurd hcond2.2 (by decide)
        | plain => rw [hknd] at hcond2; exact absurd hcond2.2 (by decide)
    · rintro ⟨mem2, hdict, hsw, hknd, ha⟩
      apply List.mem_map.mpr
      refine ⟨(k, mem2), List.mem_filter.mpr ⟨hdict, ?_⟩, ?_⟩
      · show (!(pyStartswith k "__") && mem2.kind.isFunction) = true
        rw [hsw, hknd]
        rfl
      · show (k, _get_method_annotation mem2.anns) = (k, a2)
        rw [ha]
  have hnotin : (k, mem) ∈ klass.dict →
      (mem.kind = PyKind.staticmethodWrap ∨ mem.kind = PyKind.classmethodWrap) →
      ∀ b, (k, b) ∉ _get_methods klass := by
    intro hdict hwrap b hb
    rcases (hiff b).mp hb with ⟨mem2, hd2, _, hknd2, _⟩
    have he : mem = mem2 := assoc_value_unique hnd hdict hd2
    rw [← he] at hknd2
    rcases hwrap with hw | hw <;> rw [hw] at hknd2 <;> cases hknd2
  refine ⟨hiff a, hnotin, ?_⟩
  intro hdict hwrap hsw
  refine ⟨((_get_annotations klass).lookup k).getD "", ?_⟩
  show (k, ((_get_annotations klass).lookup k).getD "")
    ∈ (klass.dict.filter
        (fun kv => !(pyStartswith kv.1 "__")
          && !((_get_methods klass).any (fun mm => mm.1 == kv.1)))).map
      (fun kv => (kv.1, ((_get_annotations klass).lookup kv.1).getD ""))
  apply List.mem_map.mpr
  refine ⟨(k, mem), List.mem_filter.mpr ⟨hdict, ?_⟩, rfl⟩
  show (!(pyStartswith k "__")
    && !((_get_methods klass).any (fun mm => mm.1 == k))) = true
  rw [Bool.and_eq_true]
  refine ⟨by rw [hsw]; rfl, ?_⟩
  rw [Bool.not_eq_true']
  cases hany : (_get_methods klass).any (fun mm => mm.1 == k) with
  | false => rfl
  | true =>
    exfalso
    rcases List.any_eq_true.mp hany with ⟨mm, hmm, hmk⟩
    have hk2 : mm.1 = k := by simpa using hmk
    have hb : (k, mm.2) ∈ _get_methods klass := by
      rw [← hk2, Prod.mk.eta]; exact hmm
    exact hnotin hdict hwrap mm.2 hb

theorem C10_witness :
    ((staticHolder.dict.map Prod.fst).Nodup
      ∧ ("sm", (⟨PyKind.staticmethodWrap, []⟩ : PyMember)) ∈ staticHolder.dict
      ∧ pyStartswith "sm" "__" = false)
    ∧ (("sm", ([] : List (String × String))) ∉ _get_methods staticHolder)
    ∧ (∃ v, ("sm", v) ∈ (_get_classic_class_structure staticHolder).fields) :=
  ⟨⟨by decide, by decide, by decide⟩,
   (C10_methods_plain_functions_only staticHolder "sm" []
      ⟨PyKind.staticmethodWrap, []⟩ (by decide)).2.1
     (by decide) (Or.inl rfl) [],
   (C10_methods_plain_functions_only staticHolder "sm" []
      ⟨PyKind.staticmethodWrap, []⟩ (by decide)).2.2
     (by decide) (Or.inl rfl) (by decide)⟩
